import Mathlib

/-!
Shallow embedding of the core client runtime of the repository
(`src/extractors/base_client.py`, `src/extractors/result.py`,
`src/pipeline/orchestrator.py`): token-bucket rate limiter, response
cache, retrying HTTP engine, telemetry, and the multi-source
orchestrator, together with theorems settling the spec claims.

Modelling conventions:
* machine floats become `ℚ`; wall-clock instants are explicit `ℚ`
  parameters (the code reads `time.time()` / `time.monotonic()`);
* the blocking loops (`_wait_for_token`) consume an explicit list of
  elapsed-time observations, one per loop iteration, and return `none`
  when that list is exhausted (the real loop blocks until success, so
  real executions correspond to sufficiently long input lists);
* `requests` responses are scripted: a list of `Resp` values consumed
  one per issued request; `random.uniform(0,1)` jitter values are an
  input stream, one per attempt;
* raising an exception becomes returning a distinguished result value;
  mutation of `self` becomes explicit state passing.
-/

/-! ### Token-bucket rate limiter (`BaseClient.__init__` / `_wait_for_token`) -/

/-- Rate-limiter state: `self._tokens`, `self._max_tokens`,
`self._refill_rate`.  `self._last_refill` is replaced by feeding the
elapsed time since the previous refill into each loop iteration. -/
structure RateState where
  tokens : ℚ
  maxTokens : ℚ
  refillRate : ℚ
deriving DecidableEq

/-- One refill step of `_wait_for_token`:
`self._tokens = min(self._max_tokens, self._tokens + elapsed * self._refill_rate)`. -/
def refillTokens (s : RateState) (elapsed : ℚ) : RateState :=
  { s with tokens := min s.maxTokens (s.tokens + elapsed * s.refillRate) }

/-- `BaseClient._wait_for_token`: loop; refill from elapsed time, then if
at least one whole token is available consume it and return, else sleep
briefly and retry.  Each list element is the elapsed time observed by one
iteration; `none` means the supplied observations ran out (the real loop
would keep blocking). -/
def waitForToken : RateState → List ℚ → Option RateState
  | _, [] => none
  | s, e :: es =>
    let s1 := refillTokens s e
    if 1 ≤ s1.tokens then some { s1 with tokens := s1.tokens - 1 }
    else waitForToken s1 es

/-- A sequence of `_wait_for_token` calls on one client (one elapsed-time
list per call), as performed by any interleaving of acquires. -/
def runAcquires : RateState → List (List ℚ) → Option RateState
  | s, [] => some s
  | s, es :: rest =>
    match waitForToken s es with
    | none => none
    | some s1 => runAcquires s1 rest

/-! ### Response cache (`_cache_key` / `_cache_get` / `_cache_set`) -/

/-- `dict.get(k)` on an association list (Python dict keys are unique;
lookup finds the entry for the key). -/
def mapGet {α : Type} (c : List (String × α)) (k : String) : Option α :=
  (c.find? (fun e => decide (e.1 = k))).map (fun e => e.2)

/-- `del d[k]` on an association list. -/
def mapErase {α : Type} (c : List (String × α)) (k : String) : List (String × α) :=
  c.filter (fun e => decide (¬ e.1 = k))

/-- `d[k] = v` on an association list (position of the entry is
irrelevant to `mapGet`). -/
def mapInsert {α : Type} (c : List (String × α)) (k : String) (v : α) : List (String × α) :=
  (k, v) :: mapErase c k

/-- `BaseClient._cache_get`: return the cached value if present and not
expired; finding an expired entry deletes it.  The cache maps a key to
`(value, expiry_timestamp)`; `now` is `time.time()`.  Returns the looked
up value together with the possibly-shrunk cache. -/
def cache_get {α : Type} (c : List (String × α × ℚ)) (k : String) (now : ℚ) :
    Option α × List (String × α × ℚ) :=
  match mapGet c k with
  | none => (none, c)
  | some (v, expiry) => if now > expiry then (none, mapErase c k) else (some v, c)

/-- `BaseClient._cache_set`: store with expiry `time.time() + self._cache_ttl`. -/
def cache_set {α : Type} (c : List (String × α × ℚ)) (k : String) (v : α)
    (now ttl : ℚ) : List (String × α × ℚ) :=
  mapInsert c k (v, now + ttl)

/-- Key ordering used by `json.dumps(..., sort_keys=True)`. -/
def keyLe (a b : String × String) : Prop := a.1 ≤ b.1

instance : DecidableRel keyLe := fun a b => inferInstanceAs (Decidable (a.1 ≤ b.1))

instance : IsTotal (String × String) keyLe := ⟨fun a b => le_total a.1 b.1⟩

instance : IsTrans (String × String) keyLe := ⟨fun _ _ _ => le_trans⟩

/-- Sorting the parameter mapping by key, as `json.dumps(..., sort_keys=True)`
does before serialising.  (The sorting algorithm is irrelevant; only the
sorted result matters.) -/
def sortParams (l : List (String × String)) : List (String × String) :=
  l.insertionSort keyLe

/-- One `"key": "value"` item of the canonical JSON dump (parameter
values are modelled as JSON strings). -/
def serializePair (p : String × String) : String :=
  "\"" ++ p.1 ++ "\": \"" ++ p.2 ++ "\""

/-- `", ".join(items)`: the default item separator of `json.dumps`. -/
def joinItems : List String → String
  | [] => ""
  | [x] => x
  | x :: y :: rest => x ++ ", " ++ joinItems (y :: rest)

/-- `json.dumps(params or \x7b\x7d, sort_keys=True)` for a string-valued
parameter mapping (`none`/empty becomes the empty mapping `[]`). -/
def dumps (l : List (String × String)) : String :=
  "\x7b" ++ joinItems ((sortParams l).map serializePair) ++ "\x7d"

/-- `BaseClient._cache_key` up to the final digest: the exact string
`f"\x7burl\x7d|\x7bnormalized\x7d"` that the source feeds to
`hashlib.md5(...)`.  The digest itself is a fixed deterministic function
of this string, so equal raw strings give equal digests. -/
def cache_key_raw (url : String) (params : List (String × String)) : String :=
  url ++ "|" ++ dumps params

/-! ### Retrying HTTP engine (`BaseClient._get`) -/

/-- One scripted reaction of `self._session.get(...)`: an HTTP response
(status, optional `Retry-After` header value, parsed JSON body modelled
as an opaque `Nat`), or a `requests.ConnectionError`. -/
inductive Resp where
  | http (status : Nat) (retryAfter : Option String) (body : Nat)
  | connError
deriving DecidableEq

/-- Observable actions of one `_get` run: each issued request (with the
response it consumed) and each `time.sleep(d)` performed in the body of
`_get` (429 waits and backoff waits). -/
inductive Event where
  | req (r : Resp)
  | sleepEv (d : ℚ)
deriving DecidableEq

/-- The `last_error` local of `_get`. -/
inductive LastErr where
  | http5xx (status : Nat)
  | conn
deriving DecidableEq

/-- How one `_get` call ends.  `httpError` is the `requests.HTTPError`
raised by `resp.raise_for_status()` on a non-429 4xx; `exhaustedErr` is
the `raise last_error` after the loop; `valueError` is the uncaught
`ValueError` from `int(...)` on a malformed `Retry-After` header or from
`time.sleep(...)` on a negative parsed one.
`stuck` / `noScript` are model artifacts: the supplied token-wait
observations or response script ran out (impossible in a real run, where
the limiter blocks until a token exists and every request gets either a
response or a connection error). -/
inductive GetResult where
  | ok (body : Nat)
  | httpError (status : Nat)
  | exhaustedErr (last : Option LastErr)
  | valueError
  | stuck
  | noScript
deriving DecidableEq

/-- Mutable client state touched by `_get`: the telemetry counters, the
number of recorded latency samples (`len(self._timings)`; the sample
values are wall-clock durations, outside the embedding), the response
cache, and the rate limiter's token count. -/
structure ClientState where
  api_calls : Nat
  cache_hits : Nat
  errors : Nat
  timings : Nat
  cache : List (String × Nat × ℚ)
  tokens : ℚ
deriving DecidableEq

/-- Per-client constants fixed at `__init__`: `self._max_tokens`
(`float(self.rate_limit)`), `self._refill_rate` (`self.rate_limit / 60`),
and `self._cache_ttl`. -/
structure ClientConfig where
  maxTokens : ℚ
  refillRate : ℚ
  cache_ttl : ℚ
deriving DecidableEq

/-- Result of one `_get` run: how it ended, the final client state, and
the trace of requests and sleeps in order. -/
structure GetOutput where
  result : GetResult
  state : ClientState
  trace : List Event
deriving DecidableEq

/-- The ASCII characters Python's `int()` strips as whitespace
(`Py_UNICODE_ISSPACE` restricted to ASCII): HT, LF, VT, FF, CR,
FS, GS, RS, US and space. -/
def pySpace (c : Char) : Bool :=
  (9 ≤ c.toNat && c.toNat ≤ 13) || (28 ≤ c.toNat && c.toNat ≤ 31) ||
    c.toNat = 32

/-- Valid continuation of a digit run under PEP 515 grouping: every
underscore sits between two digits, everything else is a digit. -/
def digitsRest : List Char → Bool
  | [] => true
  | '_' :: c :: rest => c.isDigit && digitsRest rest
  | ['_'] => false
  | c :: rest => c.isDigit && digitsRest rest

/-- The numeric value of a digit run once its grouping underscores are
removed. -/
def digitsVal (l : List Char) : Nat :=
  (l.filter (fun c => ¬ c = '_')).foldl (fun n c => n * 10 + (c.toNat - 48)) 0

/-- A nonempty digit run with PEP 515 underscore grouping: a digit first,
then `digitsRest`. -/
def pyIntBody : List Char → Option Nat
  | [] => none
  | c :: rest =>
    if c.isDigit && digitsRest rest then some (digitsVal (c :: rest))
    else none

/-- Python `int(s)` for a string argument: strip surrounding whitespace,
allow one optional sign, then a digit run with PEP 515 underscore
grouping (`int("1_0") = 10`); `none` models the `ValueError` raised on
anything else.  Faithful to CPython for ASCII strings; non-ASCII decimal
digits and the U+0085 whitespace, which `int()` also accepts, are
outside the embedding's scope (see `AsciiOnly`). -/
def pyInt (s : String) : Option Int :=
  let t := ((s.data.dropWhile (fun c => pySpace c)).reverse.dropWhile
    (fun c => pySpace c)).reverse
  match t with
  | '+' :: rest => (pyIntBody rest).map Int.ofNat
  | '-' :: rest => (pyIntBody rest).map (fun n => -(n : Int))
  | l => (pyIntBody l).map Int.ofNat

/-- ASCII-only strings: the regime in which `pyInt` agrees exactly with
Python's `int()` (HTTP header values are ASCII octets in practice). -/
def AsciiOnly (s : String) : Prop := ∀ c ∈ s.data, c.toNat < 128

instance (s : String) : Decidable (AsciiOnly s) :=
  inferInstanceAs (Decidable (∀ c ∈ s.data, c.toNat < 128))

/-- `int(resp.headers.get("Retry-After", 5))`: the default `5` applies
only when the header is absent; a present header goes through `int`. -/
def parseRetryAfter : Option String → Option Int
  | none => some 5
  | some s => pyInt s

/-- `url = f"\x7bself.base_url\x7d\x7bpath\x7d" if path.startswith("/") else path`
(`startswith("/")` expressed as a prefix test on the character list). -/
def resolveUrl (base path : String) : String :=
  if "/".data.isPrefixOf path.data then base ++ path else path

/-- The retry loop of `_get` (`for attempt in range(max_retries + 1)`
plus the trailing `self.errors += 1; raise last_error`).  `fuel` is the
number of loop iterations still permitted (`max_retries + 1 - attempt`);
`script` is consumed one response per issued request; `jitters` supplies
the `random.uniform(0, 1)` draw available to the current attempt;
`waits` supplies each attempt's elapsed-time observations for
`_wait_for_token`. -/
def get_loop (cfg : ClientConfig) (key : String) (use_cache : Bool)
    (max_retries : Nat) (now : ℚ) :
    Nat → Nat → List Resp → List ℚ → List (List ℚ) → Option LastErr →
    ClientState → GetOutput
  | 0, _, _, _, _, last, s =>
    ⟨.exhaustedErr last, { s with errors := s.errors + 1 }, []⟩
  | fuel + 1, attempt, script, jitters, waits, last, s =>
    match waitForToken ⟨s.tokens, cfg.maxTokens, cfg.refillRate⟩ (waits.headD []) with
    | none => ⟨.stuck, s, []⟩
    | some rs =>
      let s1 : ClientState :=
        { s with tokens := rs.tokens, api_calls := s.api_calls + 1 }
      match script with
      | [] => ⟨.noScript, s1, []⟩
      | r :: rest =>
        match r with
        | .connError =>
          -- `except requests.ConnectionError`: record latency, count the
          -- error, back off (sleeping only if attempts remain), loop on.
          let s2 : ClientState :=
            { s1 with timings := s1.timings + 1, errors := s1.errors + 1 }
          let wait : ℚ := 2 ^ attempt + jitters.headD 0
          let out := get_loop cfg key use_cache max_retries now
            fuel (attempt + 1) rest jitters.tail waits.tail (some .conn) s2
          if attempt < max_retries then
            ⟨out.result, out.state, .req r :: .sleepEv wait :: out.trace⟩
          else
            ⟨out.result, out.state, .req r :: out.trace⟩
        | .http status ra body =>
          let s2 : ClientState := { s1 with timings := s1.timings + 1 }
          if status = 429 then
            -- honour Retry-After (default 5 when absent); `int` on a
            -- malformed header raises ValueError out of `_get`, and so
            -- does `time.sleep` on a negative parsed value.
            match parseRetryAfter ra with
            | none => ⟨.valueError, s2, [.req r]⟩
            | some n =>
              if n < 0 then ⟨.valueError, s2, [.req r]⟩
              else
                let out := get_loop cfg key use_cache max_retries now
                  fuel (attempt + 1) rest jitters.tail waits.tail last s2
                ⟨out.result, out.state, .req r :: .sleepEv (n : ℚ) :: out.trace⟩
          else if 400 ≤ status ∧ status < 500 then
            -- non-retryable client error: count it and raise.
            ⟨.httpError status, { s2 with errors := s2.errors + 1 }, [.req r]⟩
          else if 500 ≤ status then
            -- transient server error: back off with jitter and retry.
            let wait : ℚ := 2 ^ attempt + jitters.headD 0
            let out := get_loop cfg key use_cache max_retries now
              fuel (attempt + 1) rest jitters.tail waits.tail
              (some (.http5xx status)) s2
            ⟨out.result, out.state, .req r :: .sleepEv wait :: out.trace⟩
          else
            -- success: parse, store in cache when enabled, return.
            let s3 : ClientState :=
              if use_cache then
                { s2 with cache := cache_set s2.cache key body now cfg.cache_ttl }
              else s2
            ⟨.ok body, s3, [.req r]⟩

/-- `BaseClient._get`: resolve the URL, try the cache when enabled
(counting a hit and returning immediately, with no request and no token
consumption), otherwise run the retry loop with `max_retries + 1`
attempts.  The cache lookup itself may lazily delete an expired entry. -/
def run_get (cfg : ClientConfig) (base_url path : String)
    (params : List (String × String)) (max_retries : Nat) (use_cache : Bool)
    (script : List Resp) (jitters : List ℚ) (waits : List (List ℚ))
    (now : ℚ) (s0 : ClientState) : GetOutput :=
  let url := resolveUrl base_url path
  let key := cache_key_raw url params
  if use_cache then
    match cache_get s0.cache key now with
    | (some v, c1) =>
      ⟨.ok v, { s0 with cache_hits := s0.cache_hits + 1, cache := c1 }, []⟩
    | (none, c1) =>
      get_loop cfg key use_cache max_retries now (max_retries + 1) 0 script
        jitters waits none { s0 with cache := c1 }
  else
    get_loop cfg key use_cache max_retries now (max_retries + 1) 0 script
      jitters waits none s0

/-! ### Extraction results and the orchestrator
(`src/extractors/result.py`, `src/pipeline/orchestrator.py`) -/

/-- `ExtractionResult` dataclass.  The `started_at` / `completed_at`
wall-clock datetimes and the DataFrame payload are outside the
embedding; the remaining fields keep their defaults. -/
structure ExtractionResult where
  success : Bool
  source : String
  records : Nat := 0
  api_calls : Nat := 0
  cache_hits : Nat := 0
  duration_seconds : ℚ := 0
  error : Option String := none
  warnings : List String := []
deriving DecidableEq

/-- A value supplied for one source in `collect_all(**source_kwargs)`:
either a Python dict of keyword arguments or some non-dict value
(identified only by a tag). -/
inductive PyKwValue where
  | dict (d : List (String × String))
  | nonDict (tag : String)
deriving DecidableEq

/-- Behaviour of one `client.extract(**kwargs)` call: either it returns
an `ExtractionResult` or it raises an exception with message `msg`
(`str(exc)`). -/
inductive ExtractCall where
  | returns (r : ExtractionResult)
  | raises (msg : String)
deriving DecidableEq

/-- A registered source client as the orchestrator sees it: its
`source_name`, its telemetry counters and latency samples, and its
`extract` behaviour as a function of the keyword arguments passed. -/
structure Client where
  source_name : String
  api_calls : Nat
  cache_hits : Nat
  errors : Nat
  timings : List ℚ
  extract : List (String × String) → ExtractCall

/-- `kwargs = source_kwargs.get(name, \x7b\x7d)` followed by
`if not isinstance(kwargs, dict): kwargs = \x7b\x7d`. -/
def effectiveKwargs (name : String) (source_kwargs : List (String × PyKwValue)) :
    List (String × String) :=
  match mapGet source_kwargs name with
  | some (.dict d) => d
  | some (.nonDict _) => []
  | none => []

/-- The `try/except` body of `collect_all`: run `extract`; any raised
exception becomes `ExtractionResult(success=False, source=name,
error=str(exc))`. -/
def runExtract (name : String) (c : Client) (kwargs : List (String × String)) :
    String × ExtractionResult :=
  match c.extract kwargs with
  | .returns r => (name, r)
  | .raises msg => (name, { success := false, source := name, error := some msg })

/-- `MultiSourceCollector.collect_all`: for every registered client in
registry order, build its effective kwargs, run its extraction under the
exception guard, and record the outcome under the source name. -/
def collect_all (clients : List (String × Client))
    (source_kwargs : List (String × PyKwValue)) : List (String × ExtractionResult) :=
  clients.map (fun nc => runExtract nc.1 nc.2 (effectiveKwargs nc.1 source_kwargs))

/-- `BaseClient.get_telemetry` snapshot. -/
structure Telemetry where
  source : String
  api_calls : Nat
  cache_hits : Nat
  errors : Nat
  avg_latency : ℚ
deriving DecidableEq

/-- `BaseClient.get_telemetry`: counters plus mean latency (0 when no
samples were recorded). -/
def client_telemetry (c : Client) : Telemetry :=
  { source := c.source_name
    api_calls := c.api_calls
    cache_hits := c.cache_hits
    errors := c.errors
    avg_latency := if c.timings = [] then 0 else c.timings.sum / c.timings.length }

/-- The `totals` accumulator of `MultiSourceCollector.get_telemetry`. -/
structure Totals where
  api_calls : Nat
  cache_hits : Nat
  errors : Nat
deriving DecidableEq

/-- `MultiSourceCollector.get_telemetry`: iterate the registered clients,
capture each snapshot into the per-source map and add its three counters
into the running totals. -/
def get_telemetry (clients : List (String × Client)) :
    Totals × List (String × Telemetry) :=
  clients.foldl
    (fun acc nc =>
      let t := client_telemetry nc.2
      (⟨acc.1.api_calls + t.api_calls, acc.1.cache_hits + t.cache_hits,
        acc.1.errors + t.errors⟩,
       acc.2 ++ [(nc.1, t)]))
    (⟨0, 0, 0⟩, [])

/-! ### Rate limiter invariant (claim C5) -/

/-- A single successful `_wait_for_token` leaves the token count in
`[0, capacity]` and does not touch the capacity or refill rate. -/
theorem waitForToken_bounds :
    ∀ (es : List ℚ) (s t : RateState), waitForToken s es = some t →
      0 ≤ t.tokens ∧ t.tokens ≤ s.maxTokens ∧
      t.maxTokens = s.maxTokens ∧ t.refillRate = s.refillRate := by
  intro es
  induction es with
  | nil => intro s t h; simp [waitForToken] at h
  | cons e rest ih =>
    intro s t h
    rw [waitForToken] at h
    by_cases hc : 1 ≤ (refillTokens s e).tokens
    · rw [if_pos hc] at h
      cases h
      refine ⟨?_, ?_, rfl, rfl⟩
      · show 0 ≤ (refillTokens s e).tokens - 1
        linarith
      have : (refillTokens s e).tokens ≤ s.maxTokens := min_le_left _ _
      simp only [refillTokens] at this ⊢
      linarith
    · rw [if_neg hc] at h
      have := ih (refillTokens s e) t h
      simpa [refillTokens] using this

/-- Claim C5: the rate limiter's token count is invariant under any
sequence of `_wait_for_token` calls: starting from a state whose count
lies in `[0, capacity]` (the constructor sets it to exactly the
capacity), after any interleaving of acquires the count never exceeds
the configured capacity and is never negative, a token being consumed
only when at least one whole token is available. -/
theorem token_bucket_invariant (s : RateState) (calls : List (List ℚ))
    (t : RateState) (hlo : 0 ≤ s.tokens) (hhi : s.tokens ≤ s.maxTokens)
    (hrun : runAcquires s calls = some t) :
    0 ≤ t.tokens ∧ t.tokens ≤ s.maxTokens := by
  induction calls generalizing s with
  | nil =>
    simp [runAcquires] at hrun
    subst hrun; exact ⟨hlo, hhi⟩
  | cons es rest ih =>
    rw [runAcquires] at hrun
    cases hw : waitForToken s es with
    | none => rw [hw] at hrun; cases hrun
    | some s1 =>
      rw [hw] at hrun
      obtain ⟨h0, h1, h2, _⟩ := waitForToken_bounds es s s1 hw
      have := ih s1 h0 (by rw [h2]; exact h1) hrun
      exact ⟨this.1, by rw [← h2]; exact this.2⟩

/-- Witness for C5: two concrete acquires from a full two-token bucket. -/
theorem token_bucket_invariant_witness :
    0 ≤ (⟨1, 2, 1⟩ : RateState).tokens ∧
    (⟨1, 2, 1⟩ : RateState).tokens ≤ (⟨2, 2, 1⟩ : RateState).maxTokens :=
  token_bucket_invariant ⟨2, 2, 1⟩ [[0], [1]] ⟨1, 2, 1⟩ (by norm_num)
    (by norm_num) (by norm_num [runAcquires, waitForToken, refillTokens, min_def])

/-! ### Cache visibility and expiry (claim C6) -/

/-- Deleting a key makes it absent from `dict.get`. -/
theorem mapGet_mapErase {α : Type} (c : List (String × α)) (k : String) :
    mapGet (mapErase c k) k = none := by
  induction c with
  | nil => rfl
  | cons e rest ih =>
    by_cases h : e.1 = k
    · simpa [mapErase, mapGet, List.filter_cons, h] using ih
    · simpa [mapErase, mapGet, List.filter_cons, List.find?_cons, h] using ih

/-- Inserting a key makes its value the result of `dict.get`. -/
theorem mapGet_mapInsert {α : Type} (c : List (String × α)) (k : String) (v : α) :
    mapGet (mapInsert c k v) k = some v := by
  simp [mapGet, mapInsert, List.find?_cons]

/-- Claim C6: `_cache_get` returns the stored value iff an entry for the
key exists whose expiry is ≥ the lookup time; an expired entry is never
returned and is deleted by the lookup that finds it; an entry stored
with TTL 0 is absent from any later lookup, and an entry stored with TTL
`ttl` is returned by every lookup at or before `store time + ttl`. -/
theorem cache_expiry_correct {α : Type} (c : List (String × α × ℚ))
    (k : String) (t : ℚ) :
    (∀ v : α, (cache_get c k t).1 = some v ↔
      ∃ e, mapGet c k = some (v, e) ∧ t ≤ e)
  ∧ (∀ (v : α) (e : ℚ), mapGet c k = some (v, e) → e < t →
      (cache_get c k t).1 = none ∧ mapGet (cache_get c k t).2 k = none)
  ∧ (∀ (v : α) (d : ℚ), 0 < d →
      (cache_get (cache_set c k v t 0) k (t + d)).1 = none)
  ∧ (∀ (v : α) (ttl u : ℚ), u ≤ t + ttl →
      (cache_get (cache_set c k v t ttl) k u).1 = some v) := by
  refine ⟨?_, ?_, ?_, ?_⟩
  · intro v
    constructor
    · intro h
      cases hm : mapGet c k with
      | none => simp [cache_get, hm] at h
      | some ve =>
        obtain ⟨v0, e0⟩ := ve
        by_cases he : t > e0
        · simp [cache_get, hm, he] at h
        · simp only [cache_get, hm, if_neg he] at h
          cases h
          exact ⟨e0, rfl, not_lt.mp he⟩
    · rintro ⟨e, hm, he⟩
      simp [cache_get, hm, not_lt.mpr he]
  · intro v e hm he
    refine ⟨?_, ?_⟩
    · simp [cache_get, hm, he]
    · simp only [cache_get, hm, if_pos he]
      exact mapGet_mapErase c k
  · intro v d hd
    simp only [cache_get, cache_set, mapGet_mapInsert]
    rw [if_pos (by linarith : t + d > t + 0)]
  · intro v ttl u hu
    simp [cache_get, cache_set, mapGet_mapInsert, not_lt.mpr hu]

/-- Witness for C6: a concrete store-then-lookup at TTL 0 and TTL 10. -/
theorem cache_expiry_correct_witness :
    (cache_get (cache_set ([] : List (String × Nat × ℚ)) "k" 7 100 0) "k" 101).1 = none
  ∧ (cache_get (cache_set ([] : List (String × Nat × ℚ)) "k" 7 100 10) "k" 105).1 = some 7 := by
  constructor
  · have h := (cache_expiry_correct ([] : List (String × Nat × ℚ)) "k" 100).2.2.1 7 1
      (by norm_num)
    norm_num at h
    exact h
  · exact (cache_expiry_correct ([] : List (String × Nat × ℚ)) "k" 100).2.2.2 7 10 105
      (by norm_num)

/-! ### Telemetry aggregation (claim C9) -/

/-- Accumulator form of the `get_telemetry` fold: totals add up the
mapped counters, per-source collects the snapshots in order. -/
theorem get_telemetry_aux (cs : List (String × Client)) :
    ∀ (t0 : Totals) (l0 : List (String × Telemetry)),
      cs.foldl
        (fun acc nc =>
          let t := client_telemetry nc.2
          (⟨acc.1.api_calls + t.api_calls, acc.1.cache_hits + t.cache_hits,
            acc.1.errors + t.errors⟩,
           acc.2 ++ [(nc.1, t)]))
        (t0, l0) =
      (⟨t0.api_calls + (cs.map (fun nc => (client_telemetry nc.2).api_calls)).sum,
        t0.cache_hits + (cs.map (fun nc => (client_telemetry nc.2).cache_hits)).sum,
        t0.errors + (cs.map (fun nc => (client_telemetry nc.2).errors)).sum⟩,
       l0 ++ cs.map (fun nc => (nc.1, client_telemetry nc.2))) := by
  induction cs with
  | nil => intro t0 l0; simp
  | cons c rest ih =>
    intro t0 l0
    simp only [List.foldl_cons, List.map_cons, List.sum_cons]
    rw [ih]
    simp only [Prod.mk.injEq, Totals.mk.injEq, List.append_assoc,
      List.singleton_append]
    exact ⟨⟨by omega, by omega, by omega⟩, by simp⟩

/-- Claim C9: the orchestrator's `get_telemetry` returns every
registered client's snapshot keyed by source name, and a totals record
whose three counters are the exact sums of the per-source counters; in
particular two sources with (requests, hits, errors) = (3,1,0) and
(5,2,1) aggregate to (8,3,1). -/
theorem telemetry_aggregation (cs : List (String × Client)) :
    (get_telemetry cs).1.api_calls =
      (cs.map (fun nc => (client_telemetry nc.2).api_calls)).sum
  ∧ (get_telemetry cs).1.cache_hits =
      (cs.map (fun nc => (client_telemetry nc.2).cache_hits)).sum
  ∧ (get_telemetry cs).1.errors =
      (cs.map (fun nc => (client_telemetry nc.2).errors)).sum
  ∧ (get_telemetry cs).2 = cs.map (fun nc => (nc.1, client_telemetry nc.2))
  ∧ (get_telemetry
      [("a", ⟨"a", 3, 1, 0, [], fun _ => ExtractCall.raises "e"⟩),
       ("b", ⟨"b", 5, 2, 1, [], fun _ => ExtractCall.raises "e"⟩)]).1 =
      (⟨8, 3, 1⟩ : Totals) := by
  refine ⟨?_, ?_, ?_, ?_, rfl⟩ <;>
    simp [get_telemetry, get_telemetry_aux cs ⟨0, 0, 0⟩ []]

/-! ### Failure isolation in `collect_all` (claims C1 and C10) -/

/-- The recorded name of an outcome is the registered source name. -/
theorem runExtract_fst (name : String) (c : Client)
    (kwargs : List (String × String)) : (runExtract name c kwargs).1 = name := by
  unfold runExtract
  cases c.extract kwargs <;> rfl

/-- Claim C1: `collect_all` returns exactly one entry per registered
source, in registry order; a source whose `extract` raises gets a failed
`ExtractionResult` carrying the exception text while every other
source's `extract` outcome is recorded unchanged; no exception
propagates (the model of `collect_all` is a total function because the
source catches `Exception` around each extraction). -/
theorem collect_all_isolation (clients : List (String × Client))
    (kw : List (String × PyKwValue)) :
    ((collect_all clients kw).map Prod.fst = clients.map Prod.fst)
  ∧ (∀ (i : Nat) (name : String) (c : Client) (msg : String),
      clients[i]? = some (name, c) →
      c.extract (effectiveKwargs name kw) = .raises msg →
      (collect_all clients kw)[i]? =
        some (name, { success := false, source := name, error := some msg }))
  ∧ (∀ (i : Nat) (name : String) (c : Client) (r : ExtractionResult),
      clients[i]? = some (name, c) →
      c.extract (effectiveKwargs name kw) = .returns r →
      (collect_all clients kw)[i]? = some (name, r)) := by
  refine ⟨?_, ?_, ?_⟩
  · rw [collect_all, List.map_map]
    exact List.map_congr_left (fun nc _ => runExtract_fst nc.1 nc.2 _)
  · intro i name c msg hi hx
    rw [collect_all, List.getElem?_map, hi]
    simp [runExtract, hx]
  · intro i name c r hi hx
    rw [collect_all, List.getElem?_map, hi]
    simp [runExtract, hx]

/-- Witness for C1: two registered sources, the second one raising. -/
theorem collect_all_isolation_witness :
    ((collect_all
        [("a", ⟨"a", 0, 0, 0, [], fun _ => .returns { success := true, source := "a" }⟩),
         ("b", ⟨"b", 0, 0, 0, [], fun _ => .raises "boom"⟩)] [])[1]? =
      some ("b", { success := false, source := "b", error := some "boom" }))
  ∧ ((collect_all
        [("a", ⟨"a", 0, 0, 0, [], fun _ => .returns { success := true, source := "a" }⟩),
         ("b", ⟨"b", 0, 0, 0, [], fun _ => .raises "boom"⟩)] [])[0]? =
      some ("a", { success := true, source := "a" })) :=
  ⟨(collect_all_isolation
      [("a", ⟨"a", 0, 0, 0, [], fun _ => .returns { success := true, source := "a" }⟩),
       ("b", ⟨"b", 0, 0, 0, [], fun _ => .raises "boom"⟩)] []).2.1
      1 "b" ⟨"b", 0, 0, 0, [], fun _ => .raises "boom"⟩ "boom" rfl rfl,
   (collect_all_isolation
      [("a", ⟨"a", 0, 0, 0, [], fun _ => .returns { success := true, source := "a" }⟩),
       ("b", ⟨"b", 0, 0, 0, [], fun _ => .raises "boom"⟩)] []).2.2
      0 "a" ⟨"a", 0, 0, 0, [], fun _ => .returns { success := true, source := "a" }⟩ { success := true, source := "a" } rfl rfl⟩

/-- Claim C10: when a registered source's entry in the per-source
keyword arguments is absent or not a dict, `collect_all` still runs that
client's `extract` with an empty keyword set and records its outcome. -/
theorem collect_all_nondict_kwargs (clients : List (String × Client))
    (kw : List (String × PyKwValue)) (i : Nat) (name : String) (c : Client)
    (hi : clients[i]? = some (name, c))
    (hkw : mapGet kw name = none ∨ ∃ tag, mapGet kw name = some (.nonDict tag)) :
    effectiveKwargs name kw = []
  ∧ (collect_all clients kw)[i]? = some (runExtract name c []) := by
  have hek : effectiveKwargs name kw = [] := by
    rcases hkw with h | ⟨tag, h⟩ <;> simp [effectiveKwargs, h]
  refine ⟨hek, ?_⟩
  rw [collect_all, List.getElem?_map, hi]
  simp [hek]

/-- Witness for C10: one source with a non-dict kwargs entry, one with
no entry at all. -/
theorem collect_all_nondict_kwargs_witness :
    effectiveKwargs "a" [("a", PyKwValue.nonDict "int")] = []
  ∧ (collect_all [("a", ⟨"a", 0, 0, 0, [], fun kws => .returns { success := true, source := "a", records := kws.length }⟩)]
      [("a", PyKwValue.nonDict "int")])[0]? =
      some (runExtract "a" ⟨"a", 0, 0, 0, [], fun kws => .returns { success := true, source := "a", records := kws.length }⟩ []) :=
  collect_all_nondict_kwargs
    [("a", ⟨"a", 0, 0, 0, [], fun kws => .returns { success := true, source := "a", records := kws.length }⟩)]
    [("a", PyKwValue.nonDict "int")] 0 "a"
    ⟨"a", 0, 0, 0, [], fun kws => .returns { success := true, source := "a", records := kws.length }⟩ rfl
    (Or.inr ⟨"int", rfl⟩)

/-! ### Cache-hit frame property of `_get` (claim C8) -/

/-- Claim C8: when caching is enabled and an unexpired entry exists for
the request's key, `_get` returns the cached payload having incremented
only the cache-hit counter: the issued-request counter, error counter,
latency samples, rate-limiter tokens and the cache itself are unchanged,
and no request and no sleep occurs (empty trace). -/
theorem cache_hit_frame (cfg : ClientConfig) (base path : String)
    (params : List (String × String)) (mr : Nat) (script : List Resp)
    (jitters : List ℚ) (waits : List (List ℚ)) (now : ℚ) (s0 : ClientState)
    (v : Nat) (e : ℚ)
    (hget : mapGet s0.cache (cache_key_raw (resolveUrl base path) params) = some (v, e))
    (hfresh : now ≤ e) :
    run_get cfg base path params mr true script jitters waits now s0 =
      ⟨.ok v, { s0 with cache_hits := s0.cache_hits + 1 }, []⟩ := by
  have hcg : cache_get s0.cache (cache_key_raw (resolveUrl base path) params) now =
      (some v, s0.cache) := by
    simp [cache_get, hget, not_lt.mpr hfresh]
  simp [run_get, hcg]

/-- Witness for C8: a concrete client state holding a fresh entry for
the requested URL. -/
theorem cache_hit_frame_witness :
    run_get ⟨10, 1, 300⟩ "https://api.example.com" "/data" [] 3 true
      [.http 200 none 9] [0] [[0], [0], [0], [0]] 50
      ⟨4, 2, 1, 3, [(cache_key_raw "https://api.example.com/data" [], 7, 99)], 6⟩ =
      ⟨.ok 7,
       ⟨4, 3, 1, 3, [(cache_key_raw "https://api.example.com/data" [], 7, 99)], 6⟩,
       []⟩ :=
  cache_hit_frame ⟨10, 1, 300⟩ "https://api.example.com" "/data" [] 3
    [.http 200 none 9] [0] [[0], [0], [0], [0]] 50
    ⟨4, 2, 1, 3, [(cache_key_raw "https://api.example.com/data" [], 7, 99)], 6⟩ 7 99
    (by
      have hres : resolveUrl "https://api.example.com" "/data" =
          "https://api.example.com/data" := by
        rw [resolveUrl, if_pos (by decide : ("/".data.isPrefixOf "/data".data) = true)]
        decide
      rw [hres]
      simp [mapGet, List.find?_cons])
    (by norm_num)

/-! ### Cache key determinism (claim C7) -/

/-- A string free of the JSON quote character (keys and values that need
no JSON escaping, the regime of this API's query parameters). -/
def NoQuote (s : String) : Prop := ¬ '\x22' ∈ s.data

instance (s : String) : Decidable (NoQuote s) :=
  inferInstanceAs (Decidable (¬ _ ∈ _))

/-- Splitting at the first occurrence of a separator that occurs in
neither prefix is unambiguous. -/
theorem append_sep_inj {α : Type} {c : α} :
    ∀ (xs xs2 ys ys2 : List α), ¬ c ∈ xs → ¬ c ∈ xs2 →
      xs ++ c :: ys = xs2 ++ c :: ys2 → xs = xs2 ∧ ys = ys2 := by
  intro xs
  induction xs with
  | nil =>
    intro xs2 ys ys2 _ h2 heq
    cases xs2 with
    | nil => simpa using heq
    | cons a t =>
      simp only [List.nil_append, List.cons_append, List.cons.injEq] at heq
      exact absurd (by rw [heq.1]; exact List.mem_cons_self a t) h2
  | cons x xt ih =>
    intro xs2 ys ys2 h1 h2 heq
    cases xs2 with
    | nil =>
      simp only [List.cons_append, List.nil_append, List.cons.injEq] at heq
      exact absurd (by rw [← heq.1]; exact List.mem_cons_self x xt) h1
    | cons a t =>
      simp only [List.cons_append, List.cons.injEq] at heq
      obtain ⟨rfl, heq2⟩ := heq
      have h1t : ¬ c ∈ xt := fun hm => h1 (List.mem_cons_of_mem _ hm)
      have h2t : ¬ c ∈ t := fun hm => h2 (List.mem_cons_of_mem _ hm)
      obtain ⟨he, hy⟩ := ih t ys ys2 h1t h2t heq2
      exact ⟨by rw [he], hy⟩

/-- Character-list form of one serialised item. -/
theorem serializePair_data (p : String × String) :
    (serializePair p).data =
      '\x22' :: (p.1.data ++ '\x22' :: ':' :: ' ' :: '\x22' ::
        (p.2.data ++ ['\x22'])) := by
  simp [serializePair, String.data_append, List.append_assoc]

/-- Character-list form of a two-or-more item join. -/
theorem joinItems_cons_cons_data (p x : String × String)
    (rest : List (String × String)) :
    (joinItems ((p :: x :: rest).map serializePair)).data =
      '\x22' :: (p.1.data ++ '\x22' :: ':' :: ' ' :: '\x22' ::
        (p.2.data ++ '\x22' :: ',' :: ' ' ::
          (joinItems ((x :: rest).map serializePair)).data)) := by
  simp [joinItems, String.data_append, serializePair_data, List.append_assoc]

/-- For quote-free values, the serialised item list determines the pair
list once the key sequences agree. -/
theorem joinItems_serialize_inj :
    ∀ (l1 l2 : List (String × String)),
      l1.map Prod.fst = l2.map Prod.fst →
      (∀ p ∈ l1, NoQuote p.2) → (∀ p ∈ l2, NoQuote p.2) →
      joinItems (l1.map serializePair) = joinItems (l2.map serializePair) →
      l1 = l2 := by
  intro l1
  induction l1 with
  | nil =>
    intro l2 hk _ _ _
    rw [List.map_eq_nil.mp hk.symm]
  | cons a t1 ih =>
    intro l2 hk hq1 hq2 hj
    cases l2 with
    | nil => simp at hk
    | cons b t2 =>
      obtain ⟨k, v1⟩ := a
      obtain ⟨k2, v2⟩ := b
      simp only [List.map_cons, List.cons.injEq] at hk
      obtain ⟨hkk, hkt⟩ := hk
      subst hkk
      have hv1 : NoQuote v1 := hq1 (k, v1) (List.mem_cons_self _ _)
      have hv2 : NoQuote v2 := hq2 (k, v2) (List.mem_cons_self _ _)
      cases t1 with
      | nil =>
        have ht2 : t2 = [] := List.map_eq_nil.mp hkt.symm
        subst ht2
        simp only [List.map_cons, List.map_nil, joinItems] at hj
        have hd := congrArg String.data hj
        rw [serializePair_data, serializePair_data] at hd
        simp only [List.cons.injEq, true_and] at hd
        have hd2 := List.append_cancel_left hd
        simp only [List.cons.injEq, true_and] at hd2
        have hv := List.append_cancel_right hd2
        rw [String.ext hv]
      | cons c1 t1x =>
        cases t2 with
        | nil => simp at hkt
        | cons c2 t2x =>
          have hd := congrArg String.data hj
          rw [joinItems_cons_cons_data, joinItems_cons_cons_data] at hd
          simp only [List.cons.injEq, true_and] at hd
          have hd2 := List.append_cancel_left hd
          simp only [List.cons.injEq, true_and] at hd2
          obtain ⟨hv, hrest⟩ :=
            append_sep_inj v1.data v2.data _ _ hv1 hv2 hd2
          simp only [List.cons.injEq, true_and] at hrest
          have hjoin : joinItems ((c1 :: t1x).map serializePair) =
              joinItems ((c2 :: t2x).map serializePair) := String.ext hrest
          have hq1t : ∀ p ∈ c1 :: t1x, NoQuote p.2 :=
            fun p hp => hq1 p (List.mem_cons_of_mem _ hp)
          have hq2t : ∀ p ∈ c2 :: t2x, NoQuote p.2 :=
            fun p hp => hq2 p (List.mem_cons_of_mem _ hp)
          rw [String.ext hv, ih (c2 :: t2x) hkt hq1t hq2t hjoin]

/-- A key-sorted parameter list with distinct keys is strictly sorted on
keys. -/
theorem sortParams_strict (l : List (String × String))
    (h : (l.map Prod.fst).Nodup) :
    (sortParams l).Pairwise (fun a b => a.1 < b.1) := by
  have hs : (sortParams l).Pairwise keyLe := List.sorted_insertionSort keyLe l
  have hperm : List.Perm ((sortParams l).map Prod.fst) (l.map Prod.fst) :=
    (List.perm_insertionSort keyLe l).map Prod.fst
  have hn : ((sortParams l).map Prod.fst).Nodup := hperm.nodup_iff.mpr h
  have hne : (sortParams l).Pairwise (fun a b => a.1 ≠ b.1) :=
    List.pairwise_map.mp hn
  exact (hs.and hne).imp (fun h => lt_of_le_of_ne h.1 h.2)

/-- Two parameter mappings with the same entries (in any order) and
distinct keys sort to the same list. -/
theorem sortParams_eq_of_perm (p1 p2 : List (String × String))
    (hp : List.Perm p1 p2) (h1 : (p1.map Prod.fst).Nodup) :
    sortParams p1 = sortParams p2 := by
  haveI : IsAntisymm (String × String) (fun a b => a.1 < b.1) :=
    ⟨fun a b hab hba => absurd hba (lt_asymm hab)⟩
  have h2 : (p2.map Prod.fst).Nodup := ((hp.map Prod.fst).nodup_iff).mp h1
  exact List.eq_of_perm_of_sorted
    ((List.perm_insertionSort keyLe p1).trans
      (hp.trans (List.perm_insertionSort keyLe p2).symm))
    (sortParams_strict p1 h1) (sortParams_strict p2 h2)

/-- Two mappings whose key multisets agree have the same sorted key
sequence. -/
theorem sortParams_keys_eq (p1 p2 : List (String × String))
    (hk : List.Perm (p1.map Prod.fst) (p2.map Prod.fst))
    (h1 : (p1.map Prod.fst).Nodup) (h2 : (p2.map Prod.fst).Nodup) :
    (sortParams p1).map Prod.fst = (sortParams p2).map Prod.fst := by
  exact @List.eq_of_perm_of_sorted String (fun a b => a < b)
    ⟨fun _ _ hab hba => absurd hba (lt_asymm hab)⟩ _ _
    (((List.perm_insertionSort keyLe p1).map Prod.fst).trans
      (hk.trans (((List.perm_insertionSort keyLe p2).map Prod.fst).symm)))
    (List.pairwise_map.mpr (sortParams_strict p1 h1))
    (List.pairwise_map.mpr (sortParams_strict p2 h2))

/-- In a list with distinct keys, a key determines its value. -/
theorem nodup_keys_unique {β : Type} :
    ∀ (l : List (String × β)) (k : String) (v1 v2 : β),
      (l.map Prod.fst).Nodup → (k, v1) ∈ l → (k, v2) ∈ l → v1 = v2 := by
  intro l
  induction l with
  | nil => intro k v1 v2 _ h1; cases h1
  | cons a t ih =>
    intro k v1 v2 hn h1 h2
    simp only [List.map_cons, List.nodup_cons] at hn
    cases List.mem_cons.mp h1 with
    | inl he1 =>
      cases List.mem_cons.mp h2 with
      | inl he2 => rw [← he1] at he2; exact (Prod.mk.injEq _ _ _ _ ▸ he2).2.symm
      | inr hm2 =>
        exfalso
        apply hn.1
        rw [← he1]
        exact List.mem_map.mpr ⟨(k, v2), hm2, rfl⟩
    | inr hm1 =>
      cases List.mem_cons.mp h2 with
      | inl he2 =>
        exfalso
        apply hn.1
        rw [← he2]
        exact List.mem_map.mpr ⟨(k, v1), hm1, rfl⟩
      | inr hm2 => exact ih k v1 v2 hn.2 hm1 hm2

/-- Claim C7: the cache key (the digest of `url + "|" + canonical JSON
with sorted keys`) is insertion-order independent — any permutation of a
parameter mapping with distinct keys yields the identical key — and
value-sensitive: two mappings over the same keys that disagree on some
value yield different key strings (hence different digests, the digest
being collision-free on these inputs by the spec's own assumption). -/
theorem cache_key_deterministic (url : String) (p1 p2 : List (String × String))
    (h1 : (p1.map Prod.fst).Nodup) (h2 : (p2.map Prod.fst).Nodup) :
    (List.Perm p1 p2 → cache_key_raw url p1 = cache_key_raw url p2)
  ∧ (∀ (k v1 v2 : String), List.Perm (p1.map Prod.fst) (p2.map Prod.fst) →
      (∀ p ∈ p1, NoQuote p.2) → (∀ p ∈ p2, NoQuote p.2) →
      (k, v1) ∈ p1 → (k, v2) ∈ p2 → v1 ≠ v2 →
      cache_key_raw url p1 ≠ cache_key_raw url p2) := by
  constructor
  · intro hp
    unfold cache_key_raw dumps
    rw [sortParams_eq_of_perm p1 p2 hp h1]
  · intro k v1 v2 hk hq1 hq2 hm1 hm2 hne heq
    -- peel the digest input back to the two sorted lists
    have hdumps : dumps p1 = dumps p2 := by
      have := congrArg String.data heq
      simp only [cache_key_raw, String.data_append] at this
      exact String.ext (List.append_cancel_left this)
    have hjoin : joinItems ((sortParams p1).map serializePair) =
        joinItems ((sortParams p2).map serializePair) := by
      have := congrArg String.data hdumps
      simp only [dumps, String.data_append] at this
      exact String.ext
        (List.append_cancel_left (List.append_cancel_right this))
    have hq1s : ∀ p ∈ sortParams p1, NoQuote p.2 :=
      fun p hp => hq1 p ((List.perm_insertionSort keyLe p1).mem_iff.mp hp)
    have hq2s : ∀ p ∈ sortParams p2, NoQuote p.2 :=
      fun p hp => hq2 p ((List.perm_insertionSort keyLe p2).mem_iff.mp hp)
    have hsorteq : sortParams p1 = sortParams p2 :=
      joinItems_serialize_inj (sortParams p1) (sortParams p2)
        (sortParams_keys_eq p1 p2 hk h1 h2) hq1s hq2s hjoin
    have hm1s : (k, v1) ∈ sortParams p1 :=
      (List.perm_insertionSort keyLe p1).mem_iff.mpr hm1
    have hm2s : (k, v2) ∈ sortParams p1 := by
      rw [hsorteq]
      exact (List.perm_insertionSort keyLe p2).mem_iff.mpr hm2
    have hnodup : ((sortParams p1).map Prod.fst).Nodup :=
      (((List.perm_insertionSort keyLe p1).map Prod.fst).nodup_iff).mpr h1
    exact hne (nodup_keys_unique (sortParams p1) k v1 v2 hnodup hm1s hm2s)

/-- Witness for C7: a two-key mapping permuted gives the same key; a
one-key mapping with a changed value gives a different key. -/
theorem cache_key_deterministic_witness :
    cache_key_raw "https://x" [("b", "2"), ("a", "1")] =
      cache_key_raw "https://x" [("a", "1"), ("b", "2")]
  ∧ cache_key_raw "https://x" [("a", "1")] ≠ cache_key_raw "https://x" [("a", "2")] :=
  ⟨(cache_key_deterministic "https://x" [("b", "2"), ("a", "1")]
      [("a", "1"), ("b", "2")] (by decide) (by decide)).1
      (List.Perm.swap _ _ _),
   (cache_key_deterministic "https://x" [("a", "1")] [("a", "2")]
      (by decide) (by decide)).2 "a" "1" "2" (by decide)
      (by decide) (by decide) (by decide) (by decide) (by decide)⟩

/-! ### Attempt-level behaviour of the retry loop (claims C2, C3, C4) -/

/-- Event classifiers over a `_get` trace. -/
def isReqEv : Event → Bool
  | .req _ => true
  | _ => false

/-- A non-429 client-error response (the non-retryable 4xx class). -/
def isHardClientErr : Event → Bool
  | .req (.http st _ _) => decide (400 ≤ st ∧ st < 500 ∧ st ≠ 429)
  | _ => false

/-- A connection-level failure. -/
def isConnEv : Event → Bool
  | .req .connError => true
  | _ => false

/-- A 5xx server-error response. -/
def isServerErrEv : Event → Bool
  | .req (.http st _ _) => decide (500 ≤ st)
  | _ => false

/-- The `self.errors += 1` performed after the loop exhausts all
attempts. -/
def exhaustWeight : GetResult → Nat
  | .exhaustedErr _ => 1
  | _ => 0

/-- An acquire whose first elapsed observation is 0 succeeds exactly
when a whole token is already available. -/
theorem waitForToken_zero (s : RateState) (h1 : 1 ≤ s.tokens)
    (h2 : s.tokens ≤ s.maxTokens) :
    waitForToken s [0] = some ⟨s.tokens - 1, s.maxTokens, s.refillRate⟩ := by
  have hmin : min s.maxTokens (s.tokens + 0 * s.refillRate) = s.tokens := by
    rw [zero_mul, add_zero]; exact min_eq_right h2
  rw [waitForToken]
  simp only [refillTokens, hmin]
  rw [if_pos h1]

/-- One successful (status < 400) attempt: record latency, store in the
cache when enabled, return the parsed body. -/
theorem get_loop_2xx_step (cfg : ClientConfig) (key : String) (uc : Bool)
    (mr : Nat) (now : ℚ) (fuel attempt : Nat) (st : Nat) (ra : Option String)
    (b : Nat) (rest : List Resp) (js : List ℚ) (waits : List (List ℚ))
    (last : Option LastErr) (s : ClientState) (rs : RateState)
    (hacq : waitForToken ⟨s.tokens, cfg.maxTokens, cfg.refillRate⟩
      (waits.headD []) = some rs)
    (hst : st < 400) :
    get_loop cfg key uc mr now (fuel + 1) attempt (.http st ra b :: rest)
      js waits last s =
      ⟨.ok b,
       if uc then
         { s with api_calls := s.api_calls + 1, timings := s.timings + 1,
                  tokens := rs.tokens,
                  cache := cache_set s.cache key b now cfg.cache_ttl }
       else
         { s with api_calls := s.api_calls + 1, timings := s.timings + 1,
                  tokens := rs.tokens },
       [.req (.http st ra b)]⟩ := by
  rw [get_loop, hacq]
  have h429 : ¬ st = 429 := by omega
  have h4xx : ¬ (400 ≤ st ∧ st < 500) := by omega
  have h5xx : ¬ 500 ≤ st := by omega
  simp only [h429, if_false, if_neg h429, if_neg h4xx, if_neg h5xx]

/-- One non-retryable 4xx attempt: record latency, count the error,
raise `HTTPError`. -/
theorem get_loop_4xx_step (cfg : ClientConfig) (key : String) (uc : Bool)
    (mr : Nat) (now : ℚ) (fuel attempt : Nat) (st : Nat) (ra : Option String)
    (b : Nat) (rest : List Resp) (js : List ℚ) (waits : List (List ℚ))
    (last : Option LastErr) (s : ClientState) (rs : RateState)
    (hacq : waitForToken ⟨s.tokens, cfg.maxTokens, cfg.refillRate⟩
      (waits.headD []) = some rs)
    (h1 : 400 ≤ st) (h2 : st < 500) (h3 : st ≠ 429) :
    get_loop cfg key uc mr now (fuel + 1) attempt (.http st ra b :: rest)
      js waits last s =
      ⟨.httpError st,
       { s with api_calls := s.api_calls + 1, timings := s.timings + 1,
                errors := s.errors + 1, tokens := rs.tokens },
       [.req (.http st ra b)]⟩ := by
  rw [get_loop, hacq]
  simp only [if_neg h3, if_pos (And.intro h1 h2)]

/-- One 5xx attempt: record latency, back off `2^attempt + jitter`, keep
the error for final reporting and continue with the next attempt. -/
theorem get_loop_5xx_step (cfg : ClientConfig) (key : String) (uc : Bool)
    (mr : Nat) (now : ℚ) (fuel attempt : Nat) (st : Nat) (ra : Option String)
    (b : Nat) (rest : List Resp) (js : List ℚ) (waits : List (List ℚ))
    (last : Option LastErr) (s : ClientState) (rs : RateState)
    (out : GetOutput)
    (hacq : waitForToken ⟨s.tokens, cfg.maxTokens, cfg.refillRate⟩
      (waits.headD []) = some rs)
    (hst : 500 ≤ st)
    (hrec : get_loop cfg key uc mr now fuel (attempt + 1) rest js.tail
      waits.tail (some (.http5xx st))
      { s with api_calls := s.api_calls + 1, timings := s.timings + 1,
               tokens := rs.tokens } = out) :
    get_loop cfg key uc mr now (fuel + 1) attempt (.http st ra b :: rest)
      js waits last s =
      ⟨out.result, out.state,
       .req (.http st ra b) :: .sleepEv ((2 : ℚ) ^ attempt + js.headD 0) ::
         out.trace⟩ := by
  rw [get_loop, hacq]
  have h429 : ¬ st = 429 := by omega
  have h4xx : ¬ (400 ≤ st ∧ st < 500) := by omega
  simp only [if_neg h429, if_neg h4xx, if_pos hst, hrec]

/-- One 429 attempt with a parseable (or absent) `Retry-After`: record
latency, sleep the parsed number of seconds, continue with the next
attempt without touching the error counter or `last_error`. -/
theorem get_loop_429_retry_step (cfg : ClientConfig) (key : String) (uc : Bool)
    (mr : Nat) (now : ℚ) (fuel attempt : Nat) (ra : Option String)
    (b : Nat) (rest : List Resp) (js : List ℚ) (waits : List (List ℚ))
    (last : Option LastErr) (s : ClientState) (rs : RateState) (n : Int)
    (out : GetOutput)
    (hacq : waitForToken ⟨s.tokens, cfg.maxTokens, cfg.refillRate⟩
      (waits.headD []) = some rs)
    (hpa : parseRetryAfter ra = some n) (hn : 0 ≤ n)
    (hrec : get_loop cfg key uc mr now fuel (attempt + 1) rest js.tail
      waits.tail last
      { s with api_calls := s.api_calls + 1, timings := s.timings + 1,
               tokens := rs.tokens } = out) :
    get_loop cfg key uc mr now (fuel + 1) attempt (.http 429 ra b :: rest)
      js waits last s =
      ⟨out.result, out.state,
       .req (.http 429 ra b) :: .sleepEv (n : ℚ) :: out.trace⟩ := by
  rw [get_loop, hacq]
  simp [hpa, not_lt.mpr hn, hrec]

/-- One 429 attempt whose `Retry-After` parses to a negative number:
latency is recorded, then `time.sleep` raises `ValueError` out of
`_get`. -/
theorem get_loop_429_negative_step (cfg : ClientConfig) (key : String)
    (uc : Bool) (mr : Nat) (now : ℚ) (fuel attempt : Nat) (ra : Option String)
    (b : Nat) (rest : List Resp) (js : List ℚ) (waits : List (List ℚ))
    (last : Option LastErr) (s : ClientState) (rs : RateState) (n : Int)
    (hacq : waitForToken ⟨s.tokens, cfg.maxTokens, cfg.refillRate⟩
      (waits.headD []) = some rs)
    (hpa : parseRetryAfter ra = some n) (hn : n < 0) :
    get_loop cfg key uc mr now (fuel + 1) attempt (.http 429 ra b :: rest)
      js waits last s =
      ⟨.valueError,
       { s with api_calls := s.api_calls + 1, timings := s.timings + 1,
                tokens := rs.tokens },
       [.req (.http 429 ra b)]⟩ := by
  rw [get_loop, hacq]
  simp [hpa, hn]

/-- One 429 attempt with a malformed `Retry-After`: latency is recorded,
then `int(...)` raises `ValueError` out of `_get`. -/
theorem get_loop_429_malformed_step (cfg : ClientConfig) (key : String)
    (uc : Bool) (mr : Nat) (now : ℚ) (fuel attempt : Nat) (ra : Option String)
    (b : Nat) (rest : List Resp) (js : List ℚ) (waits : List (List ℚ))
    (last : Option LastErr) (s : ClientState) (rs : RateState)
    (hacq : waitForToken ⟨s.tokens, cfg.maxTokens, cfg.refillRate⟩
      (waits.headD []) = some rs)
    (hpa : parseRetryAfter ra = none) :
    get_loop cfg key uc mr now (fuel + 1) attempt (.http 429 ra b :: rest)
      js waits last s =
      ⟨.valueError,
       { s with api_calls := s.api_calls + 1, timings := s.timings + 1,
                tokens := rs.tokens },
       [.req (.http 429 ra b)]⟩ := by
  rw [get_loop, hacq]
  simp [hpa]
/-- With caching enabled but an empty cache, `_get` proceeds directly to
the retry loop. -/
theorem run_get_empty_cache (cfg : ClientConfig) (base path : String)
    (params : List (String × String)) (mr : Nat) (script : List Resp)
    (js : List ℚ) (waits : List (List ℚ)) (now : ℚ) (s0 : ClientState)
    (hc : s0.cache = []) :
    run_get cfg base path params mr true script js waits now s0 =
      get_loop cfg (cache_key_raw (resolveUrl base path) params) true mr now
        (mr + 1) 0 script js waits none s0 := by
  have h0 : cache_get s0.cache (cache_key_raw (resolveUrl base path) params) now =
      (none, s0.cache) := by rw [hc]; rfl
  simp [run_get, h0]

/-- With caching disabled, `_get` is exactly the retry loop. -/
theorem run_get_no_cache (cfg : ClientConfig) (base path : String)
    (params : List (String × String)) (mr : Nat) (script : List Resp)
    (js : List ℚ) (waits : List (List ℚ)) (now : ℚ) (s0 : ClientState) :
    run_get cfg base path params mr false script js waits now s0 =
      get_loop cfg (cache_key_raw (resolveUrl base path) params) false mr now
        (mr + 1) 0 script js waits none s0 := rfl

/-- Claim C2: for `_get` with an empty cache and `max_retries ≥ 1`
(tokens available), scripted responses give:
[500, 200] — exactly 2 requests and the 200 payload is returned;
[404] — exactly 1 request, failing immediately with `HTTPError`;
[429 with Retry-After "2", 200] — a sleep of exactly 2 seconds between
the first and second request, then the 200 payload. -/
theorem retry_classification (cfg : ClientConfig) (base path : String)
    (params : List (String × String)) (mr : Nat) (s0 : ClientState)
    (js : List ℚ) (ws : List (List ℚ)) (ra1 ra2 : Option String) (b1 b2 : Nat)
    (hmr : 1 ≤ mr) (hc : s0.cache = []) (ht2 : 2 ≤ s0.tokens)
    (htm : s0.tokens ≤ cfg.maxTokens) :
    ((run_get cfg base path params mr true [.http 500 ra1 b1, .http 200 ra2 b2]
        js ([0] :: [0] :: ws) 0 s0).result = .ok b2
     ∧ (run_get cfg base path params mr true [.http 500 ra1 b1, .http 200 ra2 b2]
        js ([0] :: [0] :: ws) 0 s0).trace.countP isReqEv = 2)
  ∧ ((run_get cfg base path params mr true [.http 404 ra1 b1]
        js ([0] :: [0] :: ws) 0 s0).result = .httpError 404
     ∧ (run_get cfg base path params mr true [.http 404 ra1 b1]
        js ([0] :: [0] :: ws) 0 s0).trace = [.req (.http 404 ra1 b1)])
  ∧ ((run_get cfg base path params mr true [.http 429 (some "2") b1, .http 200 ra2 b2]
        js ([0] :: [0] :: ws) 0 s0).result = .ok b2
     ∧ (run_get cfg base path params mr true [.http 429 (some "2") b1, .http 200 ra2 b2]
        js ([0] :: [0] :: ws) 0 s0).trace =
        [.req (.http 429 (some "2") b1), .sleepEv 2, .req (.http 200 ra2 b2)]) := by
  obtain ⟨k, rfl⟩ : ∃ k, mr = k + 1 := ⟨mr - 1, by omega⟩
  have hacq1 : waitForToken ⟨s0.tokens, cfg.maxTokens, cfg.refillRate⟩
      ((([0] : List ℚ) :: [0] :: ws).headD []) =
      some ⟨s0.tokens - 1, cfg.maxTokens, cfg.refillRate⟩ :=
    waitForToken_zero ⟨s0.tokens, cfg.maxTokens, cfg.refillRate⟩
      (by show (1 : ℚ) ≤ s0.tokens; linarith)
      (by show s0.tokens ≤ cfg.maxTokens; exact htm)
  have hacq2 : ∀ s1 : ClientState, s1.tokens = s0.tokens - 1 →
      waitForToken ⟨s1.tokens, cfg.maxTokens, cfg.refillRate⟩
        ((([0] : List ℚ) :: ws).headD []) =
      some ⟨s1.tokens - 1, cfg.maxTokens, cfg.refillRate⟩ := by
    intro s1 h
    exact waitForToken_zero ⟨s1.tokens, cfg.maxTokens, cfg.refillRate⟩
      (by show (1 : ℚ) ≤ s1.tokens; rw [h]; linarith)
      (by show s1.tokens ≤ cfg.maxTokens; rw [h]; linarith [le_trans (by linarith : s0.tokens - 1 ≤ s0.tokens) htm])
  refine ⟨?_, ?_, ?_⟩
  · -- [500, 200]
    have hstep2 := get_loop_2xx_step cfg
      (cache_key_raw (resolveUrl base path) params) true (k + 1) 0 k 1 200 ra2 b2
      [] js.tail ([0] :: ws) (some (.http5xx 500))
      { s0 with api_calls := s0.api_calls + 1, timings := s0.timings + 1,
                tokens := s0.tokens - 1 }
      ⟨s0.tokens - 1 - 1, cfg.maxTokens, cfg.refillRate⟩
      (hacq2 _ rfl) (by norm_num)
    have hstep1 := get_loop_5xx_step cfg
      (cache_key_raw (resolveUrl base path) params) true (k + 1) 0 (k + 1) 0 500
      ra1 b1 [.http 200 ra2 b2] js ([0] :: [0] :: ws) none s0
      ⟨s0.tokens - 1, cfg.maxTokens, cfg.refillRate⟩ _ hacq1 (by norm_num) hstep2
    rw [run_get_empty_cache cfg base path params (k + 1)
      [.http 500 ra1 b1, .http 200 ra2 b2] js ([0] :: [0] :: ws) 0 s0 hc] at *
    constructor
    · rw [hstep1]
    · rw [hstep1]
      simp [List.countP_cons, isReqEv]
  · -- [404]
    have hstep := get_loop_4xx_step cfg
      (cache_key_raw (resolveUrl base path) params) true (k + 1) 0 (k + 1) 0 404
      ra1 b1 [] js ([0] :: [0] :: ws) none s0
      ⟨s0.tokens - 1, cfg.maxTokens, cfg.refillRate⟩ hacq1
      (by norm_num) (by norm_num) (by norm_num)
    rw [run_get_empty_cache cfg base path params (k + 1)
      [.http 404 ra1 b1] js ([0] :: [0] :: ws) 0 s0 hc]
    rw [hstep]
    exact ⟨rfl, rfl⟩
  · -- [429 Retry-After 2, 200]
    have hstep2 := get_loop_2xx_step cfg
      (cache_key_raw (resolveUrl base path) params) true (k + 1) 0 k 1 200 ra2 b2
      [] js.tail ([0] :: ws) none
      { s0 with api_calls := s0.api_calls + 1, timings := s0.timings + 1,
                tokens := s0.tokens - 1 }
      ⟨s0.tokens - 1 - 1, cfg.maxTokens, cfg.refillRate⟩
      (hacq2 _ rfl) (by norm_num)
    have hpa : parseRetryAfter (some "2") = some 2 := by decide
    have hstep1 := get_loop_429_retry_step cfg
      (cache_key_raw (resolveUrl base path) params) true (k + 1) 0 (k + 1) 0
      (some "2") b1 [.http 200 ra2 b2] js ([0] :: [0] :: ws) none s0
      ⟨s0.tokens - 1, cfg.maxTokens, cfg.refillRate⟩ 2 _ hacq1 hpa
      (by norm_num) hstep2
    rw [run_get_empty_cache cfg base path params (k + 1)
      [.http 429 (some "2") b1, .http 200 ra2 b2] js ([0] :: [0] :: ws) 0 s0 hc]
    rw [hstep1]
    constructor
    · rfl
    · norm_num

/-- Witness for C2: a concrete client with two tokens and one retry. -/
theorem retry_classification_witness :
    (run_get ⟨10, 1, 300⟩ "b" "p" [] 1 true [.http 500 none 1, .http 200 none 7]
      [0, 0] [[0], [0]] 0 ⟨0, 0, 0, 0, [], 10⟩).result = .ok 7
  ∧ (run_get ⟨10, 1, 300⟩ "b" "p" [] 1 true
      [.http 429 (some "2") 1, .http 200 none 7] [0, 0] [[0], [0]] 0
      ⟨0, 0, 0, 0, [], 10⟩).trace =
      [.req (.http 429 (some "2") 1), .sleepEv 2, .req (.http 200 none 7)] :=
  ⟨((retry_classification ⟨10, 1, 300⟩ "b" "p" [] 1 ⟨0, 0, 0, 0, [], 10⟩ [0, 0] []
      none none 1 7 (by norm_num) rfl (by norm_num) (by norm_num)).1).1,
   (((retry_classification ⟨10, 1, 300⟩ "b" "p" [] 1 ⟨0, 0, 0, 0, [], 10⟩ [0, 0] []
      none none 1 7 (by norm_num) rfl (by norm_num) (by norm_num)).2).2).2⟩

/-! ### Retry-After handling (claim C4) -/

/-- Counterexample to C4 as stated: a present but non-numeric
`Retry-After` header is not replaced by the 5-second default — `int()`
raises `ValueError` and `_get` fails. -/
theorem retry_after_malformed_counterexample :
    (run_get ⟨10, 1, 300⟩ "b" "p" [] 3 false [.http 429 (some "abc") 0]
      [0] [[0]] 0 ⟨0, 0, 0, 0, [], 10⟩).result = .valueError := by
  rw [run_get_no_cache]
  rw [get_loop_429_malformed_step ⟨10, 1, 300⟩
    (cache_key_raw (resolveUrl "b" "p") []) false 3 0 3 0 (some "abc") 0 []
    [0] [[0]] none ⟨0, 0, 0, 0, [], 10⟩ ⟨10 - 1, 10, 1⟩
    (waitForToken_zero ⟨10, 10, 1⟩ (by norm_num) (by norm_num))
    (by decide)]

/-- Claim C4 (amended): every 429 response whose `Retry-After` parses to
a non-negative integer is retried after sleeping that many seconds; a
missing header defaults to a 5-second sleep; but a present header that
`int()` cannot parse (non-numeric, stated here for ASCII header values,
where `pyInt` is exactly `int()`) makes `int()` raise `ValueError`, and
one that parses to a negative number makes `time.sleep` raise
`ValueError` — in both cases `_get` fails instead of defaulting. -/
theorem retry_after_handling (cfg : ClientConfig) (key : String) (uc : Bool)
    (mr : Nat) (now : ℚ) (fuel attempt : Nat) (ra : Option String) (b : Nat)
    (rest : List Resp) (js : List ℚ) (waits : List (List ℚ))
    (last : Option LastErr) (s : ClientState) (rs : RateState)
    (hacq : waitForToken ⟨s.tokens, cfg.maxTokens, cfg.refillRate⟩
      (waits.headD []) = some rs) :
    (ra = none → ∃ tl, (get_loop cfg key uc mr now (fuel + 1) attempt
        (.http 429 ra b :: rest) js waits last s).trace =
        .req (.http 429 none b) :: .sleepEv 5 :: tl)
  ∧ (∀ str n, ra = some str → pyInt str = some n → 0 ≤ n →
      ∃ tl, (get_loop cfg key uc mr now (fuel + 1) attempt
        (.http 429 ra b :: rest) js waits last s).trace =
        .req (.http 429 (some str) b) :: .sleepEv (n : ℚ) :: tl)
  ∧ (∀ str n, ra = some str → pyInt str = some n → n < 0 →
      (get_loop cfg key uc mr now (fuel + 1) attempt
        (.http 429 ra b :: rest) js waits last s).result = .valueError
      ∧ (get_loop cfg key uc mr now (fuel + 1) attempt
        (.http 429 ra b :: rest) js waits last s).trace =
        [.req (.http 429 (some str) b)])
  ∧ (∀ str, ra = some str → AsciiOnly str → pyInt str = none →
      (get_loop cfg key uc mr now (fuel + 1) attempt
        (.http 429 ra b :: rest) js waits last s).result = .valueError
      ∧ (get_loop cfg key uc mr now (fuel + 1) attempt
        (.http 429 ra b :: rest) js waits last s).trace =
        [.req (.http 429 (some str) b)]) := by
  refine ⟨?_, ?_, ?_, ?_⟩
  · rintro rfl
    have h := get_loop_429_retry_step cfg key uc mr now fuel attempt none b rest
      js waits last s rs 5 _ hacq rfl (by norm_num) rfl
    refine ⟨(get_loop cfg key uc mr now fuel (attempt + 1) rest js.tail waits.tail
      last { s with api_calls := s.api_calls + 1, timings := s.timings + 1,
                    tokens := rs.tokens }).trace, ?_⟩
    rw [h]
    norm_num
  · rintro str n rfl hp hn
    have h := get_loop_429_retry_step cfg key uc mr now fuel attempt (some str) b
      rest js waits last s rs n _ hacq hp hn rfl
    exact ⟨_, by rw [h]⟩
  · rintro str n rfl hp hn
    have h := get_loop_429_negative_step cfg key uc mr now fuel attempt
      (some str) b rest js waits last s rs n hacq hp hn
    rw [h]
    exact ⟨rfl, rfl⟩
  · rintro str rfl _ hp
    have h := get_loop_429_malformed_step cfg key uc mr now fuel attempt
      (some str) b rest js waits last s rs hacq hp
    rw [h]
    exact ⟨rfl, rfl⟩

/-- Witness for C4 (amended): concrete runs with a missing header, an
underscore-grouped numeric header ("1_0", which `int()` reads as 10), a
negative numeric header ("-2") and a non-numeric header ("abc"). -/
theorem retry_after_handling_witness :
    (∃ tl, (get_loop ⟨10, 1, 300⟩ "k" false 3 0 (3 + 1) 0
        [.http 429 none 5] [0] [[0], [0]] none
        ⟨0, 0, 0, 0, [], 10⟩).trace =
        .req (.http 429 none 5) :: .sleepEv 5 :: tl)
  ∧ (∃ tl, (get_loop ⟨10, 1, 300⟩ "k" false 3 0 (3 + 1) 0
        [.http 429 (some "1_0") 5] [0] [[0], [0]] none
        ⟨0, 0, 0, 0, [], 10⟩).trace =
        .req (.http 429 (some "1_0") 5) :: .sleepEv ((10 : Int) : ℚ) :: tl)
  ∧ ((get_loop ⟨10, 1, 300⟩ "k" false 3 0 (3 + 1) 0
        [.http 429 (some "-2") 5] [0] [[0], [0]] none
        ⟨0, 0, 0, 0, [], 10⟩).result = .valueError)
  ∧ ((get_loop ⟨10, 1, 300⟩ "k" false 3 0 (3 + 1) 0
        [.http 429 (some "abc") 5] [0] [[0], [0]] none
        ⟨0, 0, 0, 0, [], 10⟩).result = .valueError) :=
  ⟨(retry_after_handling ⟨10, 1, 300⟩ "k" false 3 0 3 0 none 5 [] [0]
      [[0], [0]] none ⟨0, 0, 0, 0, [], 10⟩ ⟨10 - 1, 10, 1⟩
      (waitForToken_zero ⟨10, 10, 1⟩ (by norm_num) (by norm_num))).1 rfl,
   (retry_after_handling ⟨10, 1, 300⟩ "k" false 3 0 3 0 (some "1_0") 5 [] [0]
      [[0], [0]] none ⟨0, 0, 0, 0, [], 10⟩ ⟨10 - 1, 10, 1⟩
      (waitForToken_zero ⟨10, 10, 1⟩ (by norm_num) (by norm_num))).2.1
      "1_0" 10 rfl (by decide) (by norm_num),
   ((retry_after_handling ⟨10, 1, 300⟩ "k" false 3 0 3 0 (some "-2") 5 [] [0]
      [[0], [0]] none ⟨0, 0, 0, 0, [], 10⟩ ⟨10 - 1, 10, 1⟩
      (waitForToken_zero ⟨10, 10, 1⟩ (by norm_num) (by norm_num))).2.2.1
      "-2" (-2) rfl (by decide) (by norm_num)).1,
   ((retry_after_handling ⟨10, 1, 300⟩ "k" false 3 0 3 0 (some "abc") 5 [] [0]
      [[0], [0]] none ⟨0, 0, 0, 0, [], 10⟩ ⟨10 - 1, 10, 1⟩
      (waitForToken_zero ⟨10, 10, 1⟩ (by norm_num) (by norm_num))).2.2.2
      "abc" rfl (by decide) (by decide)).1⟩

/-- One connection-failure attempt: record latency, count the error,
back off (sleeping only if attempts remain) and continue. -/
theorem get_loop_conn_step (cfg : ClientConfig) (key : String) (uc : Bool)
    (mr : Nat) (now : ℚ) (fuel attempt : Nat)
    (rest : List Resp) (js : List ℚ) (waits : List (List ℚ))
    (last : Option LastErr) (s : ClientState) (rs : RateState)
    (out : GetOutput)
    (hacq : waitForToken ⟨s.tokens, cfg.maxTokens, cfg.refillRate⟩
      (waits.headD []) = some rs)
    (hrec : get_loop cfg key uc mr now fuel (attempt + 1) rest js.tail
      waits.tail (some .conn)
      { s with api_calls := s.api_calls + 1, timings := s.timings + 1,
               errors := s.errors + 1, tokens := rs.tokens } = out) :
    get_loop cfg key uc mr now (fuel + 1) attempt (.connError :: rest)
      js waits last s =
      if attempt < mr then
        ⟨out.result, out.state,
         .req .connError :: .sleepEv ((2 : ℚ) ^ attempt + js.headD 0) ::
           out.trace⟩
      else ⟨out.result, out.state, .req .connError :: out.trace⟩ := by
  rw [get_loop, hacq]
  simp only [hrec]

/-- Claim C3 core (loop level): every attempt that issues a request
appends exactly one latency sample and one issued-request increment;
the error counter adds one per non-429 4xx response and per connection
failure, plus one more exactly when the loop exhausts all attempts. -/
theorem get_loop_telemetry (cfg : ClientConfig) (key : String) (uc : Bool)
    (mr : Nat) (now : ℚ) :
    ∀ (fuel attempt : Nat) (script : List Resp) (js : List ℚ)
      (waits : List (List ℚ)) (last : Option LastErr) (s : ClientState),
      (get_loop cfg key uc mr now fuel attempt script js waits last s).result ≠
        .noScript →
      (get_loop cfg key uc mr now fuel attempt script js waits last s).state.api_calls =
          s.api_calls +
          (get_loop cfg key uc mr now fuel attempt script js waits last s).trace.countP isReqEv
      ∧ (get_loop cfg key uc mr now fuel attempt script js waits last s).state.timings =
          s.timings +
          (get_loop cfg key uc mr now fuel attempt script js waits last s).trace.countP isReqEv
      ∧ (get_loop cfg key uc mr now fuel attempt script js waits last s).state.errors =
          s.errors +
          (get_loop cfg key uc mr now fuel attempt script js waits last s).trace.countP isHardClientErr +
          (get_loop cfg key uc mr now fuel attempt script js waits last s).trace.countP isConnEv +
          exhaustWeight (get_loop cfg key uc mr now fuel attempt script js waits last s).result := by
  intro fuel
  induction fuel with
  | zero =>
    intro attempt script js waits last s _
    simp [get_loop, exhaustWeight]
  | succ fuel ih =>
    intro attempt script js waits last s hns
    cases hw : waitForToken ⟨s.tokens, cfg.maxTokens, cfg.refillRate⟩
        (waits.headD []) with
    | none =>
      have hstep : get_loop cfg key uc mr now (fuel + 1) attempt script js waits
          last s = ⟨.stuck, s, []⟩ := by rw [get_loop, hw]
      rw [hstep]
      simp [exhaustWeight]
    | some rs =>
      cases script with
      | nil =>
        have hstep : get_loop cfg key uc mr now (fuel + 1) attempt [] js waits
            last s = ⟨.noScript,
              { s with api_calls := s.api_calls + 1, tokens := rs.tokens },
              []⟩ := by rw [get_loop, hw]
        rw [hstep] at hns
        exact absurd rfl hns
      | cons r rest =>
        cases r with
        | connError =>
          have hstep := get_loop_conn_step cfg key uc mr now fuel attempt rest
            js waits last s rs _ hw rfl
          rw [hstep] at hns ⊢
          by_cases ha : attempt < mr
          · rw [if_pos ha] at hns ⊢
            have hinner := ih (attempt + 1) rest js.tail waits.tail (some .conn)
              { s with api_calls := s.api_calls + 1, timings := s.timings + 1,
                       errors := s.errors + 1, tokens := rs.tokens } hns
            simp [List.countP_cons, isReqEv, isConnEv, isHardClientErr] at hinner ⊢
            omega
          · rw [if_neg ha] at hns ⊢
            have hinner := ih (attempt + 1) rest js.tail waits.tail (some .conn)
              { s with api_calls := s.api_calls + 1, timings := s.timings + 1,
                       errors := s.errors + 1, tokens := rs.tokens } hns
            simp [List.countP_cons, isReqEv, isConnEv, isHardClientErr] at hinner ⊢
            omega
        | http st ra b =>
          by_cases h429 : st = 429
          · subst h429
            cases hpa : parseRetryAfter ra with
            | none =>
              have hstep := get_loop_429_malformed_step cfg key uc mr now fuel
                attempt ra b rest js waits last s rs hw hpa
              rw [hstep]
              simp [List.countP_cons, isReqEv, isConnEv, isHardClientErr,
                exhaustWeight]
            | some n =>
              by_cases hn : n < 0
              · have hstep := get_loop_429_negative_step cfg key uc mr now fuel
                  attempt ra b rest js waits last s rs n hw hpa hn
                rw [hstep]
                simp [List.countP_cons, isReqEv, isConnEv, isHardClientErr,
                  exhaustWeight]
              · have hstep := get_loop_429_retry_step cfg key uc mr now fuel
                  attempt ra b rest js waits last s rs n _ hw hpa
                  (not_lt.mp hn) rfl
                rw [hstep] at hns ⊢
                have hinner := ih (attempt + 1) rest js.tail waits.tail last
                  { s with api_calls := s.api_calls + 1, timings := s.timings + 1,
                           tokens := rs.tokens } hns
                simp [List.countP_cons, isReqEv, isConnEv, isHardClientErr] at hinner ⊢
                omega
          · by_cases h4 : 400 ≤ st ∧ st < 500
            · have hstep := get_loop_4xx_step cfg key uc mr now fuel attempt st
                ra b rest js waits last s rs hw h4.1 h4.2 h429
              rw [hstep]
              have htrue : 400 ≤ st ∧ st < 500 ∧ st ≠ 429 := ⟨h4.1, h4.2, h429⟩
              simp [List.countP_cons, isReqEv, isConnEv, isHardClientErr,
                exhaustWeight, htrue.1, htrue.2.1, h429]
            · by_cases h5 : 500 ≤ st
              · have hstep := get_loop_5xx_step cfg key uc mr now fuel attempt st
                  ra b rest js waits last s rs _ hw h5 rfl
                rw [hstep] at hns ⊢
                have hinner := ih (attempt + 1) rest js.tail waits.tail
                  (some (.http5xx st))
                  { s with api_calls := s.api_calls + 1,
                           timings := s.timings + 1, tokens := rs.tokens } hns
                have hlt : ¬ st < 500 := by omega
                simp [List.countP_cons, isReqEv, isConnEv, isHardClientErr,
                  hlt] at hinner ⊢
                omega
              · have hlt : st < 400 := by omega
                have hstep := get_loop_2xx_step cfg key uc mr now fuel attempt st
                  ra b rest js waits last s rs hw hlt
                rw [hstep]
                have hge : ¬ 400 ≤ st := by omega
                cases uc <;>
                  simp [List.countP_cons, isReqEv, isConnEv, isHardClientErr,
                    exhaustWeight, hge]

/-- Claim C3 (amended, `_get` level): in every run of `_get`, each
attempt appends exactly one latency sample and increments the
issued-request counter exactly once (one of each per issued request);
the error counter increments exactly once per non-429 4xx response and
per connection failure, plus exactly once more when all attempts are
exhausted; it never increments on a cache hit, on a retried 429, or on
a 5xx response that a later attempt recovers from. -/
theorem telemetry_side_effects (cfg : ClientConfig) (base path : String)
    (params : List (String × String)) (mr : Nat) (uc : Bool)
    (script : List Resp) (js : List ℚ) (waits : List (List ℚ)) (now : ℚ)
    (s0 : ClientState)
    (hns : (run_get cfg base path params mr uc script js waits now s0).result ≠
      .noScript) :
    (run_get cfg base path params mr uc script js waits now s0).state.api_calls =
        s0.api_calls +
        (run_get cfg base path params mr uc script js waits now s0).trace.countP isReqEv
    ∧ (run_get cfg base path params mr uc script js waits now s0).state.timings =
        s0.timings +
        (run_get cfg base path params mr uc script js waits now s0).trace.countP isReqEv
    ∧ (run_get cfg base path params mr uc script js waits now s0).state.errors =
        s0.errors +
        (run_get cfg base path params mr uc script js waits now s0).trace.countP isHardClientErr +
        (run_get cfg base path params mr uc script js waits now s0).trace.countP isConnEv +
        exhaustWeight (run_get cfg base path params mr uc script js waits now s0).result := by
  cases uc with
  | false =>
    rw [run_get_no_cache] at hns ⊢
    exact get_loop_telemetry cfg (cache_key_raw (resolveUrl base path) params)
      false mr now (mr + 1) 0 script js waits none s0 hns
  | true =>
    cases hcg : cache_get s0.cache (cache_key_raw (resolveUrl base path) params) now with
    | mk o c1 =>
      cases o with
      | some v =>
        have hstep : run_get cfg base path params mr true script js waits now s0 =
            ⟨.ok v, { s0 with cache_hits := s0.cache_hits + 1, cache := c1 }, []⟩ := by
          simp [run_get, hcg]
        rw [hstep]
        simp [exhaustWeight]
      | none =>
        have hstep : run_get cfg base path params mr true script js waits now s0 =
            get_loop cfg (cache_key_raw (resolveUrl base path) params) true mr
              now (mr + 1) 0 script js waits none { s0 with cache := c1 } := by
          simp [run_get, hcg]
        rw [hstep] at hns ⊢
        have h := get_loop_telemetry cfg
          (cache_key_raw (resolveUrl base path) params) true mr now (mr + 1) 0
          script js waits none { s0 with cache := c1 } hns
        simpa using h

/-- Witness for C3 (amended): the telemetry equations on a concrete
single-404 run. -/
theorem telemetry_side_effects_witness :
    (run_get ⟨10, 1, 300⟩ "b" "p" [] 1 false [.http 404 none 1] [0] [[0]] 0
        ⟨0, 0, 0, 0, [], 10⟩).state.api_calls =
      0 + (run_get ⟨10, 1, 300⟩ "b" "p" [] 1 false [.http 404 none 1] [0] [[0]] 0
        ⟨0, 0, 0, 0, [], 10⟩).trace.countP isReqEv
  ∧ (run_get ⟨10, 1, 300⟩ "b" "p" [] 1 false [.http 404 none 1] [0] [[0]] 0
        ⟨0, 0, 0, 0, [], 10⟩).state.timings =
      0 + (run_get ⟨10, 1, 300⟩ "b" "p" [] 1 false [.http 404 none 1] [0] [[0]] 0
        ⟨0, 0, 0, 0, [], 10⟩).trace.countP isReqEv
  ∧ (run_get ⟨10, 1, 300⟩ "b" "p" [] 1 false [.http 404 none 1] [0] [[0]] 0
        ⟨0, 0, 0, 0, [], 10⟩).state.errors =
      0 + (run_get ⟨10, 1, 300⟩ "b" "p" [] 1 false [.http 404 none 1] [0] [[0]] 0
        ⟨0, 0, 0, 0, [], 10⟩).trace.countP isHardClientErr +
      (run_get ⟨10, 1, 300⟩ "b" "p" [] 1 false [.http 404 none 1] [0] [[0]] 0
        ⟨0, 0, 0, 0, [], 10⟩).trace.countP isConnEv +
      exhaustWeight (run_get ⟨10, 1, 300⟩ "b" "p" [] 1 false [.http 404 none 1]
        [0] [[0]] 0 ⟨0, 0, 0, 0, [], 10⟩).result :=
  telemetry_side_effects ⟨10, 1, 300⟩ "b" "p" [] 1 false [.http 404 none 1]
    [0] [[0]] 0 ⟨0, 0, 0, 0, [], 10⟩
    (by
      rw [run_get_no_cache,
        get_loop_4xx_step ⟨10, 1, 300⟩ (cache_key_raw (resolveUrl "b" "p") [])
          false 1 0 1 0 404 none 1 [] [0] [[0]] none ⟨0, 0, 0, 0, [], 10⟩
          ⟨10 - 1, 10, 1⟩
          (waitForToken_zero ⟨10, 10, 1⟩ (by norm_num) (by norm_num))
          (by norm_num) (by norm_num) (by norm_num)]
      simp)

/-- Counterexample to C3 as stated: on the scripted run [500, 200] the
consumed trace contains exactly one 5xx response, yet the error counter
ends at 0 — a 5xx response does not increment the error counter unless
retries are exhausted. -/
theorem errors_5xx_counterexample :
    (run_get ⟨10, 1, 300⟩ "b" "p" [] 1 false [.http 500 none 1, .http 200 none 7]
      [0, 0] [[0], [0]] 0 ⟨0, 0, 0, 0, [], 10⟩).state.errors = 0
  ∧ (run_get ⟨10, 1, 300⟩ "b" "p" [] 1 false [.http 500 none 1, .http 200 none 7]
      [0, 0] [[0], [0]] 0 ⟨0, 0, 0, 0, [], 10⟩).trace.countP isServerErrEv = 1 := by
  have hstep2 := get_loop_2xx_step ⟨10, 1, 300⟩
    (cache_key_raw (resolveUrl "b" "p") []) false 1 0 0 1 200 none 7 []
    ([0, 0] : List ℚ).tail ([[0], [0]] : List (List ℚ)).tail
    (some (.http5xx 500)) ⟨1, 0, 0, 1, [], 10 - 1⟩ ⟨10 - 1 - 1, 10, 1⟩
    (waitForToken_zero ⟨10 - 1, 10, 1⟩ (by norm_num) (by norm_num))
    (by norm_num)
  rw [run_get_no_cache,
    get_loop_5xx_step ⟨10, 1, 300⟩ (cache_key_raw (resolveUrl "b" "p") [])
      false 1 0 1 0 500 none 1 [.http 200 none 7] [0, 0] [[0], [0]] none
      ⟨0, 0, 0, 0, [], 10⟩ ⟨10 - 1, 10, 1⟩ _
      (waitForToken_zero ⟨10, 10, 1⟩ (by norm_num) (by norm_num))
      (by norm_num) hstep2]
  constructor
  · simp
  · simp [List.countP_cons, isServerErrEv]
